import Mathlib

/-!
Verification development for the pyblob repository: a shallow embedding of
its path utilities (utils.py), the Django storage adapter
(azure_storage.py), and the sync/async blob facades (blob.py,
azure_blob.py), together with theorems settling the specification claims.

Python strings are modelled as lists of characters (`PyStr`); the keyword
argument dictionaries are modelled by the only key the facade code
inspects (`raw : Option Bool`, `none` = key absent, `some b` = present
with truthiness `b`); exceptions are modelled with `Except`; the remote
blob service that the wrapped SDK talks to is modelled by an explicit
state (`AzState`) together with a trace of the SDK calls performed.
-/

abbrev PyStr := List Char

/-- Python `s.endswith('/')`. -/
def endsWithSlash (s : PyStr) : Bool := s.getLast? == some '/'

/-- Python `s.startswith(p)`. -/
def pyStartswith (s p : PyStr) : Bool := s.take p.length == p

/-! ### posixpath (Python standard library, as used by utils.py)

`splitSlash` is Python `s.split('/')`, `joinSlash` is `'/'.join(l)`,
`normpath` is `posixpath.normpath`, `posix_join` is `posixpath.join`
restricted to two arguments (the only way utils.py calls it). -/

def splitSlash : PyStr → List PyStr
  | [] => [[]]
  | c :: rest =>
    if c = '/' then [] :: splitSlash rest
    else
      match splitSlash rest with
      | [] => [[c]]
      | h :: t => (c :: h) :: t

def joinSlash : List PyStr → PyStr
  | [] => []
  | [x] => x
  | x :: xs => x ++ '/' :: joinSlash xs

/-- `initial_slashes` of `posixpath.normpath`: 0, 1, or 2 (2 exactly when
the path starts with `//` but not `///`). -/
def initialSlashes (p : PyStr) : Nat :=
  if pyStartswith p ['/'] then
    if pyStartswith p ['/', '/'] && !pyStartswith p ['/', '/', '/'] then 2 else 1
  else 0

/-- The Python string `'..'`. -/
def dotdot : PyStr := ['.', '.']

/-- One iteration of the component loop of `posixpath.normpath`:
skip `''` and `'.'`; append a component unless it is a `'..'` that can
cancel; otherwise pop the last component when there is one. -/
def stepComp (isl : Nat) (acc : List PyStr) (comp : PyStr) : List PyStr :=
  if comp = [] ∨ comp = ['.'] then acc
  else if comp ≠ dotdot ∨ (isl = 0 ∧ acc = []) ∨
          (acc ≠ [] ∧ acc.getLast? = some dotdot) then
    acc ++ [comp]
  else if acc ≠ [] then acc.dropLast
  else acc

def normParts (isl : Nat) (comps : List PyStr) : List PyStr :=
  comps.foldl (stepComp isl) []

def normpath (p : PyStr) : PyStr :=
  if p = [] then ['.']
  else
    let isl := initialSlashes p
    let parts := normParts isl (splitSlash p)
    let path := List.replicate isl '/' ++ joinSlash parts
    if path = [] then ['.'] else path

def posix_join (a b : PyStr) : PyStr :=
  if pyStartswith b ['/'] then b
  else if a = [] ∨ endsWithSlash a then a ++ b
  else a ++ '/' :: b

/-! ### utils.py -/

/-- The character replacement of `clean_name`'s `.replace('\\', '/')`. -/
def slashify (c : Char) : Char := if c = '\\' then '/' else c

/-- utils.clean_name: normalize, convert backslashes, restore a stripped
trailing slash, and map `'.'` to the empty name. -/
def clean_name (name : PyStr) : PyStr :=
  let cleaned := (normpath name).map slashify
  let cleaned :=
    if endsWithSlash name && !endsWithSlash cleaned then cleaned ++ ['/'] else cleaned
  if cleaned = ['.'] then [] else cleaned

def rstripSlash (s : PyStr) : PyStr := (s.reverse.dropWhile (· = '/')).reverse

def lstripSlash (s : PyStr) : PyStr := s.dropWhile (· = '/')

/-- `base_path` as computed at the top of utils.safe_join. -/
def base_path_of (base : PyStr) : PyStr :=
  if base ≠ [] then rstripSlash base else []

/-- The `final_path` value of utils.safe_join (single path component, the
only way the adapter calls it) just before the containment check. -/
def joined_final (base p : PyStr) : PyStr :=
  let basePath := base_path_of base
  let fp0 := basePath ++ ['/']
  let f1 := normpath (posix_join fp0 p)
  let f2 := if endsWithSlash p || (f1 ++ ['/'] == fp0) then f1 ++ ['/'] else f1
  if f2 = basePath then f2 ++ ['/'] else f2

/-- The containment check of utils.safe_join: the final path must start
with the base path and the character right after the base path must be a
slash (Python raises ValueError on the negation). -/
def inside_root (base p : PyStr) : Bool :=
  pyStartswith (joined_final base p) (base_path_of base) &&
  ((joined_final base p).get? (base_path_of base).length == some '/')

/-- utils.safe_join; `Except.error` models the ValueError raise. -/
def safe_join (base p : PyStr) : Except Unit PyStr :=
  if inside_root base p then .ok (lstripSlash (joined_final base p))
  else .error ()

/-! ### Exceptions -/

inductive AzError
  | resourceNotFound
  | resourceExists
deriving DecidableEq

inductive PyExn
  | keyError
  | indexError
  | valueError
  | suspiciousOperation
  | attributeError
  | typeError
  | azure (e : AzError)
deriving DecidableEq

/-! ### azure_storage.py name pipeline -/

/-- AzureStorage._normalize_name: safe_join under the configured root,
turning the ValueError into a SuspiciousOperation. -/
def normalize_name (location name : PyStr) : Except PyExn PyStr :=
  match safe_join location name with
  | .ok p => .ok p
  | .error _ => .error .suspiciousOperation

def isDotOrSlash (c : Char) : Bool := c = '.' || c = '/'

/-- Python `s.strip('./')`. -/
def pyStripDotSlash (s : PyStr) : PyStr :=
  ((s.dropWhile isDotOrSlash).reverse.dropWhile isDotOrSlash).reverse

/-- Module-level azure_storage._get_valid_path: strip leading/trailing
dots and slashes, then validate length, non-emptiness and slash count. -/
def get_valid_path_raw (s : PyStr) : Except PyExn PyStr :=
  let s := pyStripDotSlash s
  if s.length > 1024 then .error .valueError
  else if s.length = 0 then .error .valueError
  else if s.countP (· = '/') > 256 then .error .valueError
  else .ok s

/-- AzureStorage._get_valid_path: `_get_valid_path(_normalize_name(clean_name(name)))`. -/
def get_valid_path (location name : PyStr) : Except PyExn PyStr :=
  match normalize_name location (clean_name name) with
  | .error e => .error e
  | .ok p => get_valid_path_raw p

def Except.toSum {ε α : Type} : Except ε α → ε ⊕ α
  | .error e => .inl e
  | .ok a => .inr a

instance {ε α : Type} [DecidableEq ε] [DecidableEq α] : DecidableEq (Except ε α) :=
  fun a b => decidable_of_iff (a.toSum = b.toSum) (by
    cases a <;> cases b <;> simp [Except.toSum])

/-! ### Remote blob service state model

The wrapped SDK's remote effects are modelled by an explicit state:
existing containers, containers in the pending-delete state, stored
blobs, and a trace recording every SDK call that was actually issued. -/

inductive SdkCall
  | listContainers
  | createContainer (c : PyStr)
  | deleteContainer (c : PyStr)
  | walkBlobs (c : PyStr)
  | uploadBlob (c b : PyStr)
  | downloadBlob (c b : PyStr)
  | getBlobProperties (c b : PyStr)
  | deleteBlob (c b : PyStr)
deriving DecidableEq

structure AzState where
  containers : List PyStr
  pending : List PyStr
  blobs : List (PyStr × PyStr × PyStr)
  trace : List SdkCall
deriving DecidableEq

def mark (s : AzState) (c : SdkCall) : AzState := { s with trace := s.trace ++ [c] }

def lookupBlob (s : AzState) (c b : PyStr) : Option PyStr :=
  (s.blobs.find? (fun t => t.1 == c && t.2.1 == b)).map (·.2.2)

def blobNames (s : AzState) (c : PyStr) : List PyStr :=
  (s.blobs.filter (fun t => t.1 == c)).map (·.2.1)

/-- The logical values the modelled Python methods can produce.
`coroutine` stands for an un-awaited coroutine object. -/
inductive PyVal
  | none
  | unit
  | bool (b : Bool)
  | str (s : PyStr)
  | stream (s : PyStr)
  | strList (l : List PyStr)
  | props (name : PyStr) (size : Nat)
  | coroutine
deriving DecidableEq

/-- SDK `container_client.create_container()`: 409 ResourceExistsError when
the container exists or is being deleted, otherwise the container is created. -/
def sdkCreateContainer (s : AzState) (c : PyStr) : AzState × Except PyExn PyVal :=
  let s := mark s (.createContainer c)
  if c ∈ s.pending then (s, .error (.azure .resourceExists))
  else if c ∈ s.containers then (s, .error (.azure .resourceExists))
  else ({ s with containers := s.containers ++ [c] }, .ok .unit)

/-- SDK `container_client.delete_container()`: ResourceNotFoundError when
absent; deletion moves the container into the pending-delete state. -/
def sdkDeleteContainer (s : AzState) (c : PyStr) : AzState × Except PyExn PyVal :=
  let s := mark s (.deleteContainer c)
  if c ∈ s.containers then
    ({ s with containers := s.containers.erase c, pending := s.pending ++ [c] }, .ok .none)
  else (s, .error (.azure .resourceNotFound))

/-- SDK `service_client.list_containers()` (names). -/
def sdkListContainers (s : AzState) : AzState × List PyStr :=
  (mark s .listContainers, s.containers)

/-- SDK `blob_client.upload_blob(data)` with no overwrite flag:
ResourceNotFoundError when the container is absent or pending deletion,
ResourceExistsError when the blob already exists. -/
def sdkUploadBlob (s : AzState) (c b d : PyStr) : AzState × Except PyExn PyVal :=
  let s := mark s (.uploadBlob c b)
  if c ∈ s.pending then (s, .error (.azure .resourceNotFound))
  else if c ∉ s.containers then (s, .error (.azure .resourceNotFound))
  else if (lookupBlob s c b).isSome then (s, .error (.azure .resourceExists))
  else ({ s with blobs := s.blobs ++ [(c, b, d)] }, .ok .unit)

/-- SDK `blob_client.download_blob()`: the downloaded payload, or
ResourceNotFoundError. -/
def sdkDownloadBlob (s : AzState) (c b : PyStr) : AzState × Except PyExn PyStr :=
  let s := mark s (.downloadBlob c b)
  if c ∈ s.pending then (s, .error (.azure .resourceNotFound))
  else if c ∉ s.containers then (s, .error (.azure .resourceNotFound))
  else
    match lookupBlob s c b with
    | Option.none => (s, .error (.azure .resourceNotFound))
    | some d => (s, .ok d)

/-- SDK `blob_client.delete_blob()`. -/
def sdkDeleteBlob (s : AzState) (c b : PyStr) : AzState × Except PyExn PyVal :=
  let s := mark s (.deleteBlob c b)
  if c ∈ s.pending then (s, .error (.azure .resourceNotFound))
  else if c ∉ s.containers then (s, .error (.azure .resourceNotFound))
  else if (lookupBlob s c b).isSome then
    ({ s with blobs := s.blobs.filter (fun t => !(t.1 == c && t.2.1 == b)) }, .ok .none)
  else (s, .error (.azure .resourceNotFound))

/-- SDK `blob_client.get_blob_properties()`: name and size. -/
def sdkGetBlobProperties (s : AzState) (c b : PyStr) : AzState × Except PyExn PyVal :=
  let s := mark s (.getBlobProperties c b)
  if c ∈ s.pending then (s, .error (.azure .resourceNotFound))
  else if c ∉ s.containers then (s, .error (.azure .resourceNotFound))
  else
    match lookupBlob s c b with
    | Option.none => (s, .error (.azure .resourceNotFound))
    | some d => (s, .ok (.props b d.length))

/-- SDK `container_client.walk_blobs(name_starts_with)` (names). -/
def sdkWalkBlobs (s : AzState) (c pref : PyStr) : AzState × Except PyExn PyVal :=
  let s := mark s (.walkBlobs c)
  if c ∈ s.pending then (s, .error (.azure .resourceNotFound))
  else if c ∉ s.containers then (s, .error (.azure .resourceNotFound))
  else (s, .ok (.strList ((blobNames s c).filter (fun n => pyStartswith n pref))))

/-! ### azure_blob.py facade (class Blob)

Every method takes `**kwargs`; the only key the code inspects is `raw`,
modelled by `raw : Option Bool` (`none` = absent, `some b` = present with
truthiness `b`).  `run_async` drives a coroutine to completion on a fresh
event loop, so in the model it is the identity on the operation. -/

/-- Truthiness of `kwargs.get('raw')`. -/
def rawTruthy : Option Bool → Bool
  | Option.none => false
  | some b => b

/-- Python `kwargs.pop('raw')`: KeyError when the key is absent. -/
def popRaw : Option Bool → Except PyExn Unit
  | Option.none => .error .keyError
  | some _ => .ok ()

/-- The dispatch prologue shared by the azure_blob facade methods:
`if self.isasync and not kwargs.get('raw'): kwargs.pop('raw'); return self.run_async(op…)`
and otherwise `kwargs.pop('raw'); return self.blob.op(…)` — where in
async mode that second call builds an un-awaited coroutine, so nothing
executes. -/
def rawDispatch (isasync : Bool) (raw : Option Bool)
    (op : AzState → AzState × Except PyExn PyVal) (s : AzState) :
    AzState × Except PyExn PyVal :=
  if isasync && !rawTruthy raw then
    match popRaw raw with
    | .error e => (s, .error e)
    | .ok _ => op s
  else
    match popRaw raw with
    | .error e => (s, .error e)
    | .ok _ => if isasync then (s, .ok .coroutine) else op s

/-- azure_blob Blob.create_container: dispatch, catching
ResourceExistsError ("Container Exists") and, below it, any exception
(error_msg); nothing escalates. -/
def facadeCreateContainer (isasync : Bool) (cn : PyStr) (raw : Option Bool)
    (s : AzState) : AzState × Except PyExn PyVal :=
  match rawDispatch isasync raw (fun s => sdkCreateContainer s cn) s with
  | (s', .ok v) => (s', .ok v)
  | (s', .error (.azure .resourceExists)) => (s', .ok .none)
  | (s', .error _) => (s', .ok .none)

/-- azure_blob Blob.delete_container: dispatch, catching
ResourceNotFoundError and any exception. -/
def facadeDeleteContainer (isasync : Bool) (cn : PyStr) (raw : Option Bool)
    (s : AzState) : AzState × Except PyExn PyVal :=
  match rawDispatch isasync raw (fun s => sdkDeleteContainer s cn) s with
  | (s', .ok v) => (s', .ok v)
  | (s', .error (.azure .resourceNotFound)) => (s', .ok .none)
  | (s', .error _) => (s', .ok .none)

/-- azure_blob Blob.upload_blob: dispatch; on ResourceNotFoundError create
the container (a facade call that receives no raw argument) and retry via
a recursive call whose kwargs no longer contain `raw`; on
ResourceExistsError log "Blob Exists" and return None; any other
exception (including the KeyError from `kwargs.pop('raw')`) is swallowed
by the blanket handler.  The nested `except ResourceExistsError`
("container being deleted, try later") is unreachable because both the
facade create_container and the recursive upload swallow all of their
exceptions.  The recursion is bounded by `fuel`; the retry always carries
`raw = none`, which aborts with KeyError before any further recursion, so
every `fuel ≥ 1` produces the code's behavior. -/
def facadeUploadBlobFuel : Nat → Bool → PyStr → PyStr → PyStr → Option Bool →
    AzState → AzState × Except PyExn PyVal
  | fuel, isasync, cn, b, d, raw, s =>
    match rawDispatch isasync raw (fun s => sdkUploadBlob s cn b d) s with
    | (s', .ok v) => (s', .ok v)
    | (s', .error (.azure .resourceNotFound)) =>
      let (s1, _) := facadeCreateContainer isasync cn Option.none s'
      match fuel with
      | 0 => (s1, .ok .none)
      | fuel' + 1 => facadeUploadBlobFuel fuel' isasync cn b d Option.none s1
    | (s', .error (.azure .resourceExists)) => (s', .ok .none)
    | (s', .error _) => (s', .ok .none)

def facadeUploadBlob (isasync : Bool) (cn b d : PyStr) (raw : Option Bool)
    (s : AzState) : AzState × Except PyExn PyVal :=
  facadeUploadBlobFuel 2 isasync cn b d raw s

/-- azure_blob BlobSync.get_blob / BlobAsync.get_blob: download_blob,
returning the stream downloader. -/
def getBlobOp (cn b : PyStr) (s : AzState) : AzState × Except PyExn PyVal :=
  match sdkDownloadBlob s cn b with
  | (s', .ok d) => (s', .ok (.stream d))
  | (s', .error e) => (s', .error e)

/-- azure_blob BlobSync.read_blob / BlobAsync.read_blob: download_blob
followed by readall, returning the payload bytes. -/
def readBlobOp (cn b : PyStr) (s : AzState) : AzState × Except PyExn PyVal :=
  match sdkDownloadBlob s cn b with
  | (s', .ok d) => (s', .ok (.str d))
  | (s', .error e) => (s', .error e)

/-- azure_blob Blob.download_blob: dispatch with only the blanket handler. -/
def facadeDownloadBlob (isasync : Bool) (cn b : PyStr) (raw : Option Bool)
    (s : AzState) : AzState × Except PyExn PyVal :=
  match rawDispatch isasync raw (getBlobOp cn b) s with
  | (s', .ok v) => (s', .ok v)
  | (s', .error _) => (s', .ok .none)

/-- azure_blob Blob.read_blob: dispatch with only the blanket handler. -/
def facadeReadBlob (isasync : Bool) (cn b : PyStr) (raw : Option Bool)
    (s : AzState) : AzState × Except PyExn PyVal :=
  match rawDispatch isasync raw (readBlobOp cn b) s with
  | (s', .ok v) => (s', .ok v)
  | (s', .error _) => (s', .ok .none)

/-- azure_blob Blob.delete_blob: dispatch, catching
ResourceNotFoundError and any exception. -/
def facadeDeleteBlob (isasync : Bool) (cn b : PyStr) (raw : Option Bool)
    (s : AzState) : AzState × Except PyExn PyVal :=
  match rawDispatch isasync raw (fun s => sdkDeleteBlob s cn b) s with
  | (s', .ok v) => (s', .ok v)
  | (s', .error (.azure .resourceNotFound)) => (s', .ok .none)
  | (s', .error _) => (s', .ok .none)

/-- azure_blob Blob.blob_properties: dispatch with only the blanket handler. -/
def facadeBlobProperties (isasync : Bool) (cn b : PyStr) (raw : Option Bool)
    (s : AzState) : AzState × Except PyExn PyVal :=
  match rawDispatch isasync raw (fun s => sdkGetBlobProperties s cn b) s with
  | (s', .ok v) => (s', .ok v)
  | (s', .error _) => (s', .ok .none)

/-- azure_blob Blob.walk_blobs: logs `args[0]` (IndexError when there is
no positional argument, caught by the blanket handler), then a dispatch
that differs from the other methods: in async mode with a falsy raw the
pop is guarded (`if raw: kwargs.pop('raw')`), so an ABSENT raw does not
abort and the operation runs via run_async. -/
def facadeWalkBlobs (isasync : Bool) (cn : PyStr) (args : List PyStr)
    (raw : Option Bool) (s : AzState) : AzState × Except PyExn PyVal :=
  match args.head? with
  | Option.none => (s, .ok .none)
  | some a0 =>
    if isasync && !rawTruthy raw then
      match sdkWalkBlobs s cn a0 with
      | (s', .ok v) => (s', .ok v)
      | (s', .error _) => (s', .ok .none)
    else
      match popRaw raw with
      | .error _ => (s, .ok .none)
      | .ok _ =>
        if isasync then (s, .ok .coroutine)
        else
          match sdkWalkBlobs s cn a0 with
          | (s', .ok v) => (s', .ok v)
          | (s', .error _) => (s', .ok .none)

/-- azure_blob Blob.container_exists: list the containers — via
run_async(list_container) in async mode, directly in sync mode — and
test membership of the current container name; no exception handler. -/
def facadeContainerExists (isasync : Bool) (cn : PyStr) (s : AzState) :
    AzState × Except PyExn PyVal :=
  if isasync then
    let (s', l) := sdkListContainers s
    (s', .ok (.bool (decide (cn ∈ l))))
  else
    let (s', l) := sdkListContainers s
    (s', .ok (.bool (decide (cn ∈ l))))

/-! ### Shared-access token (azure_blob BlobBase.get_sas_token)

Times are modelled as seconds (Nat).  The Python default
`expiry=datetime.datetime.utcnow() + datetime.timedelta(hours=1)` is a
default-argument expression, evaluated exactly once when the class body
is executed (`classDefTime`), not at call time; an omitted expiry
therefore always uses that frozen value.  `generate_blob_sas` is called
with `BlobSasPermissions(read=True)`, so the token is read-only. -/

structure SasToken where
  read_only : Bool
  expiry : Nat
deriving DecidableEq

def get_sas_token (classDefTime : Nat) (expiry : Option Nat) : SasToken :=
  { read_only := true, expiry := expiry.getD (classDefTime + 3600) }

/-! ### blob.py (the older facade and its operation classes) -/

/-- blob.py BlobSync.upload_blob: a bare SDK call with no exception
handler — every error propagates to the caller. -/
def blobPySyncUploadBlob (cn b d : PyStr) (s : AzState) :
    AzState × Except PyExn PyVal :=
  sdkUploadBlob s cn b d

/-- blob.py BlobAsync.upload_blob: on ResourceNotFoundError create the
container and retry the upload once; exceptions raised inside that
handler propagate (sibling handlers do not catch them); any other
exception from the first attempt is swallowed by error_msg. -/
def blobPyAsyncUploadBlob (cn b d : PyStr) (s : AzState) :
    AzState × Except PyExn PyVal :=
  match sdkUploadBlob s cn b d with
  | (s1, .ok v) => (s1, .ok v)
  | (s1, .error (.azure .resourceNotFound)) =>
    match sdkCreateContainer s1 cn with
    | (s2, .error e) => (s2, .error e)
    | (s2, .ok _) =>
      match sdkUploadBlob s2 cn b d with
      | (s3, .ok v) => (s3, .ok v)
      | (s3, .error e) => (s3, .error e)
  | (s1, .error _) => (s1, .ok .none)

/-- blob.py Blob.upload_blob: plain delegation with no handler; in async
mode the un-awaited coroutine is returned and nothing executes. -/
def blobPyFacadeUploadBlob (isasync : Bool) (cn b d : PyStr) (s : AzState) :
    AzState × Except PyExn PyVal :=
  if isasync then (s, .ok .coroutine) else blobPySyncUploadBlob cn b d s

/-- blob.py Blob.container_exists: `if self.isasync: return
self.blob.list_container()` returns the coroutine object without
awaiting it; in sync mode the membership of the current container name
in the listing is returned (None is in no list of names). -/
def blobPyContainerExists (isasync : Bool) (cn : Option PyStr) (s : AzState) :
    AzState × Except PyExn PyVal :=
  if isasync then (s, .ok .coroutine)
  else
    let (s', l) := sdkListContainers s
    (s', .ok (.bool (match cn with
                     | some n => decide (n ∈ l)
                     | Option.none => false)))

/-- blob.py Blob.create_container: when the container name is truthy,
delegate (the sync class executes the SDK call, swallowing
ResourceExistsError and any exception; the async class builds an un-run
coroutine that is discarded); otherwise `ValueError("Pleas assign a
container name")` is constructed but never raised and the method falls
through.  Either way the method returns None and raises nothing. -/
def blobPyCreateContainer (isasync : Bool) (cn : Option PyStr) (s : AzState) :
    AzState × Except PyExn PyVal :=
  match cn with
  | some n =>
    if n = [] then (s, .ok .none)
    else if isasync then (s, .ok .none)
    else
      let (s', _) := sdkCreateContainer s n
      (s', .ok .none)
  | Option.none => (s, .ok .none)

/-- blob.py Blob.delete_container: same shape as create_container (the
sync class swallows ResourceNotFoundError; the unassigned-name branch
constructs but never raises the ValueError). -/
def blobPyDeleteContainer (isasync : Bool) (cn : Option PyStr) (s : AzState) :
    AzState × Except PyExn PyVal :=
  match cn with
  | some n =>
    if n = [] then (s, .ok .none)
    else if isasync then (s, .ok .none)
    else
      let (s', _) := sdkDeleteContainer s n
      (s', .ok .none)
  | Option.none => (s, .ok .none)

/-! ### Credential builder (BlobBase.__init__, identical in blob.py and
azure_blob.py) -/

inductive Protocal
  | http
  | https
deriving DecidableEq

/-- `protocal.name` of the Python enum. -/
def Protocal.pname : Protocal → PyStr
  | .http => "http".data
  | .https => "https".data

structure InitArgs where
  connect_string : Option PyStr
  protocal : Option Protocal
  host : Option PyStr
  account_name : Option PyStr
  account_key : Option PyStr
  endpoint_suffix : Option PyStr
  blob_port : Option Nat
  queue_port : Option Nat
  table_port : Option Nat

/-- Truthiness of an optional string argument (absent or empty = falsy). -/
def strTruthy : Option PyStr → Bool
  | Option.none => false
  | some s => !(s == [])

/-- Truthiness of an optional port argument (absent or 0 = falsy). -/
def portTruthy : Option Nat → Bool
  | Option.none => false
  | some n => !(n == 0)

def joinSemi : List PyStr → PyStr
  | [] => []
  | [x] => x
  | x :: xs => x ++ ';' :: joinSemi xs

structure ConnDescriptor where
  connect_string : PyStr
deriving DecidableEq

/-- BlobBase.__init__: build the connection descriptor.  Control flow of
the source: a truthy connect_string wins; otherwise protocol, account
name and account key are required (TypeError when missing).  In the
host-plus-port ("local") branch only host and the ports are assigned —
the `endpoint_suffix` ATTRIBUTE is never set, so the unconditional
`self.account_url = f"https://{account_name}.blob.{self.endpoint_suffix}"`
line that follows raises AttributeError.  In the endpoint-suffix
("azure") branch `self.host` is never set, so the
`if blob_port: … f"{protocol}://{self.host}:{blob_port}/…"` lines raise
AttributeError whenever any port is truthy.  The BlobEndpoint /
QueueEndpoint / TableEndpoint assembly is therefore dead code: no input
reaches it. -/
def blobBaseInit (a : InitArgs) : Except PyExn ConnDescriptor :=
  if strTruthy a.connect_string then
    .ok { connect_string := a.connect_string.getD [] }
  else if a.protocal.isSome && strTruthy a.account_name && strTruthy a.account_key then
    if strTruthy a.host &&
       (portTruthy a.blob_port || portTruthy a.queue_port || portTruthy a.table_port) then
      .error .attributeError
    else if strTruthy a.endpoint_suffix then
      if portTruthy a.blob_port || portTruthy a.queue_port || portTruthy a.table_port then
        .error .attributeError
      else
        let entries : List PyStr :=
          ["DefaultEndpointsProtocol=".data ++ (a.protocal.getD .https).pname,
           "AccountName=".data ++ a.account_name.getD [],
           "AccountKey=".data ++ a.account_key.getD [],
           "EndpointSuffix=".data ++ a.endpoint_suffix.getD []]
        .ok { connect_string := joinSemi entries }
    else .error .typeError
  else .error .typeError

/-! ### AzureStorage._save (azure_storage.py) -/

/-- AzureStorage._save: compute the cleaned name, then the valid path
(whose failures — SuspiciousOperation from _normalize_name or ValueError
from _get_valid_path — escalate, being raised before the try); upload
with no overwrite flag and return the cleaned name from INSIDE the try;
the `except ResourceExistsError` handler is `pass`, so when the blob
already exists the function falls off the end and returns None.  Any
other upload error escalates.  `runAsync` selects _save_async driven to
completion on a fresh event loop versus _save_sync; both issue the same
upload call. -/
def azureStorageSave (runAsync : Bool) (location cn : PyStr)
    (name content : PyStr) (s : AzState) :
    AzState × Except PyExn (Option PyStr) :=
  let cleanedName := clean_name name
  match get_valid_path location name with
  | .error e => (s, .error e)
  | .ok vname =>
    let (s', r) :=
      if runAsync then sdkUploadBlob s cn vname content
      else sdkUploadBlob s cn vname content
    match r with
    | .ok _ => (s', .ok (some cleanedName))
    | .error (.azure .resourceExists) => (s', .ok Option.none)
    | .error e => (s', .error e)

/-! ### AzureStorage._open / AzureStorageFile (azure_storage.py) -/

/-- The file handle built by AzureStorage._open: AzureStorageFile stores
the raw name and mode verbatim (azure_storage.py lines 186-192). -/
structure AzureStorageFileHandle where
  name : PyStr
  mode : PyStr
deriving DecidableEq

/-- AzureStorage._open: `return AzureStorageFile(name, mode, self)` — a
pure construction.  Unlike _save, it applies neither clean_name nor
_normalize_name nor safe_join to the name and can raise nothing, so no
name is ever rejected here. -/
def azureStorageOpen (name mode : PyStr) : Except PyExn AzureStorageFileHandle :=
  .ok { name := name, mode := mode }

/-- The blob name AzureStorageFile.download_file / download_file_async
pass to `container_client.download_blob` (azure_storage.py lines
196-202): the expression is `self.name`, the verbatim stored name — no
normalization or containment check sits anywhere on the open path.  (The
call's second argument reads `self.timeout`, an attribute AzureStorageFile
never assigns, so the download itself fails with AttributeError for every
name alike — a name-independent failure, not a sanitization rejection.) -/
def azureStorageFileBlobName (f : AzureStorageFileHandle) : PyStr := f.name

/-! ### Concrete states and inputs used by the witnesses and counterexamples -/

def emptyState : AzState := { containers := [], pending := [], blobs := [], trace := [] }

def oneBlobState : AzState :=
  { containers := ["c".data], pending := [],
    blobs := [("c".data, "b".data, "old".data)], trace := [] }

def oneContainerState : AzState :=
  { containers := ["c".data], pending := [], blobs := [], trace := [] }

def savedFileState : AzState :=
  { containers := ["c".data], pending := [],
    blobs := [("c".data, "file.txt".data, "old".data)], trace := [] }

/-- C6's failing input: local-emulator mode (host plus a blob port). -/
def localEmulatorArgs : InitArgs :=
  { connect_string := Option.none, protocal := some .https,
    host := some "localhost".data, account_name := some "a".data,
    account_key := some "k".data,
    endpoint_suffix := some "core.windows.net".data,
    blob_port := some 10000, queue_port := Option.none, table_port := Option.none }

/-! ### Helper lemmas about the facade dispatch -/

lemma rawDispatch_none (isasync : Bool) (op : AzState → AzState × Except PyExn PyVal)
    (s : AzState) : rawDispatch isasync Option.none op s = (s, .error .keyError) := by
  cases isasync <;> rfl

lemma rawDispatch_not_truthy (raw : Option Bool)
    (op : AzState → AzState × Except PyExn PyVal) (s : AzState)
    (h : rawTruthy raw = false) :
    rawDispatch true raw op s = rawDispatch false raw op s := by
  match raw, h with
  | Option.none, _ => rfl
  | some false, _ => rfl

lemma facadeUploadBlobFuel_raw_none (fuel : Nat) (isasync : Bool)
    (cn b d : PyStr) (s : AzState) :
    facadeUploadBlobFuel fuel isasync cn b d Option.none s = (s, .ok .none) := by
  cases fuel <;> cases isasync <;> rfl

lemma facadeCreateContainer_raw_none (isasync : Bool) (cn : PyStr) (s : AzState) :
    facadeCreateContainer isasync cn Option.none s = (s, .ok .none) := by
  cases isasync <;> rfl

lemma facadeDeleteContainer_raw_none (isasync : Bool) (cn : PyStr) (s : AzState) :
    facadeDeleteContainer isasync cn Option.none s = (s, .ok .none) := by
  cases isasync <;> rfl

lemma facadeDownloadBlob_raw_none (isasync : Bool) (cn b : PyStr) (s : AzState) :
    facadeDownloadBlob isasync cn b Option.none s = (s, .ok .none) := by
  cases isasync <;> rfl

lemma facadeReadBlob_raw_none (isasync : Bool) (cn b : PyStr) (s : AzState) :
    facadeReadBlob isasync cn b Option.none s = (s, .ok .none) := by
  cases isasync <;> rfl

lemma facadeDeleteBlob_raw_none (isasync : Bool) (cn b : PyStr) (s : AzState) :
    facadeDeleteBlob isasync cn b Option.none s = (s, .ok .none) := by
  cases isasync <;> rfl

lemma facadeBlobProperties_raw_none (isasync : Bool) (cn b : PyStr) (s : AzState) :
    facadeBlobProperties isasync cn b Option.none s = (s, .ok .none) := by
  cases isasync <;> rfl

lemma facadeWalkBlobs_sync_raw_none (cn a0 : PyStr) (s : AzState) :
    facadeWalkBlobs false cn [a0] Option.none s = (s, .ok .none) := rfl

lemma facadeUploadBlob_raw_none (isasync : Bool) (cn b d : PyStr) (s : AzState) :
    facadeUploadBlob isasync cn b d Option.none s = (s, .ok .none) :=
  facadeUploadBlobFuel_raw_none 2 isasync cn b d s

/-! ### Claim C2 -/

/-- C2 (code_bug evidence): uploading into a container that does not
exist through the azure_blob facade (sync mode, a truthy `raw` so the
initial `kwargs.pop('raw')` succeeds and the SDK upload is actually
attempted) does NOT create the container and does NOT retry the upload:
the ResourceNotFoundError handler's `self.create_container()` receives
no `raw` kwarg and dies on `kwargs.pop('raw')` (KeyError, swallowed) and
the recursive retry dies the same way, so afterwards the container and
the blob both still do not exist, the trace shows exactly one SDK call
(the failed upload, no create, no second upload), and the caller gets a
silent None. -/
theorem upload_missing_container_dead_end :
    (facadeUploadBlob false "c".data "b".data "payload".data (some true) emptyState).1.containers = [] ∧
    (facadeUploadBlob false "c".data "b".data "payload".data (some true) emptyState).1.blobs = [] ∧
    (facadeUploadBlob false "c".data "b".data "payload".data (some true) emptyState).1.trace
      = [SdkCall.uploadBlob "c".data "b".data] ∧
    (facadeUploadBlob false "c".data "b".data "payload".data (some true) emptyState).2
      = .ok .none := by
  refine ⟨?_, ?_, ?_, ?_⟩ <;> decide

/-! ### Claim C5 -/

/-- C5 (code_bug evidence): get_sas_token's default expiry is the frozen
class-definition-time value `classDefTime + 3600`, for every definition
time — it does not depend on the call time at all; an explicit expiry is
encoded exactly and the permission is read-only.  In particular a call
made one hour after class definition (call time 3600 for classDefTime 0)
yields expiry 3600, not the call-time-based 7200 the claim requires. -/
theorem sas_token_default_frozen :
    (∀ defTime e, get_sas_token defTime (some e) = { read_only := true, expiry := e }) ∧
    (∀ defTime, get_sas_token defTime Option.none
        = { read_only := true, expiry := defTime + 3600 }) ∧
    get_sas_token 0 Option.none ≠ { read_only := true, expiry := 3600 + 3600 } :=
  ⟨fun _ _ => rfl, fun _ => rfl, by decide⟩

/-! ### Claim C6 -/

/-- C6 (code_bug evidence): supplying protocol, account name and account
key together with a host and a blob port (local-emulator mode) makes
BlobBase.__init__ raise AttributeError — the `endpoint_suffix` attribute
read by the unconditional `account_url` line was never assigned in that
branch — instead of succeeding with endpoint entries, and this failure is
neither of the two stated TypeError cases. -/
theorem local_emulator_init_raises :
    blobBaseInit localEmulatorArgs = .error .attributeError ∧
    blobBaseInit localEmulatorArgs ≠ .error .typeError := by
  refine ⟨?_, ?_⟩ <;> decide

/-! ### Claim C8 -/

/-- C8 (counterexample): walk_blobs called on the async facade with a
positional argument and NO `raw` keyword does not return None without
performing the operation — its dispatch guards the pop with `if raw:`,
so the operation runs (the trace records the SDK walk call) and the blob
listing is returned. -/
theorem walk_blobs_async_no_raw_performs :
    (facadeWalkBlobs true "c".data [[]] Option.none oneBlobState).2
      = .ok (.strList ["b".data]) ∧
    (facadeWalkBlobs true "c".data [[]] Option.none oneBlobState).1.trace
      = [SdkCall.walkBlobs "c".data] := by
  refine ⟨?_, ?_⟩ <;> decide

/-- C8 (amended): with no `raw` keyword argument, create_container,
delete_container, upload_blob, download_blob, read_blob, delete_blob and
blob_properties all return None without touching the state (the
`kwargs.pop('raw')` KeyError is swallowed before any SDK call), in both
sync and async mode; walk_blobs behaves that way in sync mode (in async
mode it performs the operation, see the counterexample). -/
theorem raw_missing_is_noop (isasync : Bool) (cn b d a0 : PyStr) (s : AzState) :
    facadeCreateContainer isasync cn Option.none s = (s, .ok .none) ∧
    facadeDeleteContainer isasync cn Option.none s = (s, .ok .none) ∧
    facadeUploadBlob isasync cn b d Option.none s = (s, .ok .none) ∧
    facadeDownloadBlob isasync cn b Option.none s = (s, .ok .none) ∧
    facadeReadBlob isasync cn b Option.none s = (s, .ok .none) ∧
    facadeDeleteBlob isasync cn b Option.none s = (s, .ok .none) ∧
    facadeBlobProperties isasync cn b Option.none s = (s, .ok .none) ∧
    facadeWalkBlobs false cn [a0] Option.none s = (s, .ok .none) :=
  ⟨facadeCreateContainer_raw_none isasync cn s,
   facadeDeleteContainer_raw_none isasync cn s,
   facadeUploadBlob_raw_none isasync cn b d s,
   facadeDownloadBlob_raw_none isasync cn b s,
   facadeReadBlob_raw_none isasync cn b s,
   facadeDeleteBlob_raw_none isasync cn b s,
   facadeBlobProperties_raw_none isasync cn b s,
   facadeWalkBlobs_sync_raw_none cn a0 s⟩

/-! ### Claim C9 -/

/-- C9: when no container name is assigned (container_name is None),
blob.py's Blob.create_container and Blob.delete_container return None
without raising anything and without issuing any SDK call (the state,
including the trace, is untouched): the constructed
`ValueError('Pleas assign a container name')` is never raised. -/
theorem no_container_name_is_silent (isasync : Bool) (s : AzState) :
    blobPyCreateContainer isasync Option.none s = (s, .ok .none) ∧
    blobPyDeleteContainer isasync Option.none s = (s, .ok .none) := by
  cases isasync <;> exact ⟨rfl, rfl⟩

/-! ### Helper lemmas about the state model -/

lemma mark_containers (s : AzState) (c : SdkCall) : (mark s c).containers = s.containers := rfl

lemma mark_pending (s : AzState) (c : SdkCall) : (mark s c).pending = s.pending := rfl

lemma mark_blobs (s : AzState) (c : SdkCall) : (mark s c).blobs = s.blobs := rfl

lemma lookupBlob_mark (s : AzState) (c : SdkCall) (x y : PyStr) :
    lookupBlob (mark s c) x y = lookupBlob s x y := rfl

lemma lookupBlob_eq_of_blobs (t s : AzState) (h : t.blobs = s.blobs) (c b : PyStr) :
    lookupBlob t c b = lookupBlob s c b := by
  simp [lookupBlob, h]

lemma sdkUploadBlob_existing (s : AzState) (c b d : PyStr)
    (hp : c ∉ s.pending) (hc : c ∈ s.containers) (hb : (lookupBlob s c b).isSome) :
    sdkUploadBlob s c b d = (mark s (.uploadBlob c b), .error (.azure .resourceExists)) := by
  simp [sdkUploadBlob, mark_pending, mark_containers, lookupBlob_mark, hp, hc, hb]

lemma sdkUploadBlob_fresh (s : AzState) (c b d : PyStr)
    (hp : c ∉ s.pending) (hc : c ∈ s.containers) (hb : lookupBlob s c b = Option.none) :
    sdkUploadBlob s c b d
      = ({ mark s (.uploadBlob c b) with blobs := s.blobs ++ [(c, b, d)] }, .ok .unit) := by
  simp [sdkUploadBlob, mark_pending, mark_containers, mark_blobs, lookupBlob_mark, hp, hc, hb]

lemma sdkDownloadBlob_found (s : AzState) (c b d : PyStr)
    (hp : c ∉ s.pending) (hc : c ∈ s.containers) (hb : lookupBlob s c b = some d) :
    sdkDownloadBlob s c b = (mark s (.downloadBlob c b), .ok d) := by
  simp [sdkDownloadBlob, mark_pending, mark_containers, lookupBlob_mark, hp, hc, hb]

lemma facadeReadBlob_found (s : AzState) (cn b d : PyStr)
    (hp : cn ∉ s.pending) (hc : cn ∈ s.containers) (hb : lookupBlob s cn b = some d) :
    facadeReadBlob false cn b (some true) s = (mark s (.downloadBlob cn b), .ok (.str d)) := by
  simp [facadeReadBlob, rawDispatch, popRaw, rawTruthy, readBlobOp,
        sdkDownloadBlob_found s cn b d hp hc hb]

/-! ### Claim C1 -/

/-- C1 (counterexample): the claim also asserts rejection under the
adapter's open, but the open path never rejects an escaping name:
_open returns a file handle for `../../etc/passwd` under root `media`
with no SuspiciousOperation, although the name resolves outside the
root, and the blob name the handle passes to the SDK download is the
verbatim escaping name — clean_name, _normalize_name and safe_join are
never invoked on this path. -/
theorem open_does_not_reject :
    inside_root "media".data "../../etc/passwd".data = false ∧
    azureStorageOpen "../../etc/passwd".data "rb".data
      = .ok { name := "../../etc/passwd".data, mode := "rb".data } ∧
    azureStorageFileBlobName { name := "../../etc/passwd".data, mode := "rb".data }
      = "../../etc/passwd".data := by
  refine ⟨?_, ?_, ?_⟩ <;> decide

/-- C1 (amended, the save path): a name whose normalized join with the
configured root lands outside the root (the containment check of
safe_join fails) is rejected on the adapter's save path: safe_join
raises the ValueError that _normalize_name surfaces as
SuspiciousOperation, and _save propagates it; a name that is accepted
yields a joined path that starts with the root.  The open path performs
no such check (see the counterexample). -/
theorem safe_join_security (location name : PyStr) :
    (inside_root location name = false →
      normalize_name location name = .error .suspiciousOperation) ∧
    (∀ q, normalize_name location name = .ok q →
      inside_root location name = true ∧
      pyStartswith (joined_final location name) (base_path_of location) = true ∧
      q = lstripSlash (joined_final location name)) ∧
    (∀ runAsync cn content s, inside_root location (clean_name name) = false →
      (azureStorageSave runAsync location cn name content s).2
        = .error .suspiciousOperation) := by
  refine ⟨?_, ?_, ?_⟩
  · intro h
    simp [normalize_name, safe_join, h]
  · intro q hq
    by_cases h : inside_root location name = true
    · refine ⟨h, ?_, ?_⟩
      · exact (Bool.and_eq_true _ _ ▸ h).1
      · simp [normalize_name, safe_join, h] at hq
        exact hq.symm
    · rw [Bool.not_eq_true] at h
      simp [normalize_name, safe_join, h] at hq
  · intro runAsync cn content s h
    simp [azureStorageSave, get_valid_path, normalize_name, safe_join, h]

/-- Witness for C1 at the spec's own example input under a nonempty root. -/
theorem safe_join_security_w :
    inside_root "media".data "../../etc/passwd".data = false ∧
    normalize_name "media".data "../../etc/passwd".data = .error .suspiciousOperation :=
  ⟨by decide, (safe_join_security "media".data "../../etc/passwd".data).1 (by decide)⟩

/-! ### Mode-equality helper lemmas (azure_blob facade) -/

lemma facadeCreateContainer_mode_eq (cn : PyStr) (raw : Option Bool) (s : AzState)
    (h : rawTruthy raw = false) :
    facadeCreateContainer true cn raw s = facadeCreateContainer false cn raw s := by
  unfold facadeCreateContainer
  rw [rawDispatch_not_truthy _ _ _ h]

lemma facadeDeleteContainer_mode_eq (cn : PyStr) (raw : Option Bool) (s : AzState)
    (h : rawTruthy raw = false) :
    facadeDeleteContainer true cn raw s = facadeDeleteContainer false cn raw s := by
  unfold facadeDeleteContainer
  rw [rawDispatch_not_truthy _ _ _ h]

lemma facadeDownloadBlob_mode_eq (cn b : PyStr) (raw : Option Bool) (s : AzState)
    (h : rawTruthy raw = false) :
    facadeDownloadBlob true cn b raw s = facadeDownloadBlob false cn b raw s := by
  unfold facadeDownloadBlob
  rw [rawDispatch_not_truthy _ _ _ h]

lemma facadeReadBlob_mode_eq (cn b : PyStr) (raw : Option Bool) (s : AzState)
    (h : rawTruthy raw = false) :
    facadeReadBlob true cn b raw s = facadeReadBlob false cn b raw s := by
  unfold facadeReadBlob
  rw [rawDispatch_not_truthy _ _ _ h]

lemma facadeDeleteBlob_mode_eq (cn b : PyStr) (raw : Option Bool) (s : AzState)
    (h : rawTruthy raw = false) :
    facadeDeleteBlob true cn b raw s = facadeDeleteBlob false cn b raw s := by
  unfold facadeDeleteBlob
  rw [rawDispatch_not_truthy _ _ _ h]

lemma facadeBlobProperties_mode_eq (cn b : PyStr) (raw : Option Bool) (s : AzState)
    (h : rawTruthy raw = false) :
    facadeBlobProperties true cn b raw s = facadeBlobProperties false cn b raw s := by
  unfold facadeBlobProperties
  rw [rawDispatch_not_truthy _ _ _ h]

lemma facadeUploadBlobFuel_succ_some (fuel : Nat) (isasync bv : Bool)
    (cn b d : PyStr) (s : AzState) :
    facadeUploadBlobFuel (fuel + 1) isasync cn b d (some bv) s =
      match rawDispatch isasync (some bv) (fun s => sdkUploadBlob s cn b d) s with
      | (s', .ok v) => (s', .ok v)
      | (s', .error (.azure .resourceNotFound)) =>
        let (s1, _) := facadeCreateContainer isasync cn Option.none s'
        facadeUploadBlobFuel fuel isasync cn b d Option.none s1
      | (s', .error (.azure .resourceExists)) => (s', .ok .none)
      | (s', .error _) => (s', .ok .none) := by
  rw [facadeUploadBlobFuel]

lemma facadeUploadBlob_mode_eq (cn b d : PyStr) (raw : Option Bool) (s : AzState)
    (h : rawTruthy raw = false) :
    facadeUploadBlob true cn b d raw s = facadeUploadBlob false cn b d raw s := by
  match raw, h with
  | Option.none, _ => rw [facadeUploadBlob_raw_none, facadeUploadBlob_raw_none]
  | some false, _ =>
    show facadeUploadBlobFuel 2 true cn b d (some false) s
        = facadeUploadBlobFuel 2 false cn b d (some false) s
    rw [facadeUploadBlobFuel_succ_some, facadeUploadBlobFuel_succ_some,
        rawDispatch_not_truthy (some false) (fun s => sdkUploadBlob s cn b d) s rfl]
    rcases hsdk : rawDispatch false (some false) (fun s => sdkUploadBlob s cn b d) s
      with ⟨s', r⟩
    cases r with
    | ok v => rfl
    | error e =>
      match e with
      | .azure .resourceNotFound =>
        simp only [facadeCreateContainer_raw_none, facadeUploadBlobFuel_raw_none]
      | .azure .resourceExists => rfl
      | .keyError => rfl
      | .indexError => rfl
      | .valueError => rfl
      | .suspiciousOperation => rfl
      | .attributeError => rfl
      | .typeError => rfl

/-! ### Claim C4 -/

/-- C4 (counterexample): blob.py's facade does not return the same
logical value in both modes: container_exists on the same state is True
in sync mode but the un-awaited coroutine object (not a completed
result) in async mode. -/
theorem container_exists_mode_mismatch :
    (blobPyContainerExists false (some "c".data) oneContainerState).2 = .ok (.bool true) ∧
    (blobPyContainerExists true (some "c".data) oneContainerState).2 = .ok .coroutine ∧
    PyVal.coroutine ≠ PyVal.bool true := by
  refine ⟨?_, ?_, ?_⟩ <;> decide

/-- C4 (amended): for the azure_blob facade, every operation invoked with
a non-truthy `raw` argument produces the same state and the same logical
result in async mode (where run_async drives the coroutine to completion
on a fresh event loop) as in sync mode; blob.py's facade violates the
claim (see the counterexample). -/
theorem facade_mode_equivalence (cn b d : PyStr) (raw : Option Bool) (s : AzState)
    (h : rawTruthy raw = false) :
    facadeContainerExists true cn s = facadeContainerExists false cn s ∧
    facadeCreateContainer true cn raw s = facadeCreateContainer false cn raw s ∧
    facadeDeleteContainer true cn raw s = facadeDeleteContainer false cn raw s ∧
    facadeUploadBlob true cn b d raw s = facadeUploadBlob false cn b d raw s ∧
    facadeDownloadBlob true cn b raw s = facadeDownloadBlob false cn b raw s ∧
    facadeReadBlob true cn b raw s = facadeReadBlob false cn b raw s ∧
    facadeDeleteBlob true cn b raw s = facadeDeleteBlob false cn b raw s ∧
    facadeBlobProperties true cn b raw s = facadeBlobProperties false cn b raw s :=
  ⟨rfl,
   facadeCreateContainer_mode_eq cn raw s h,
   facadeDeleteContainer_mode_eq cn raw s h,
   facadeUploadBlob_mode_eq cn b d raw s h,
   facadeDownloadBlob_mode_eq cn b raw s h,
   facadeReadBlob_mode_eq cn b raw s h,
   facadeDeleteBlob_mode_eq cn b raw s h,
   facadeBlobProperties_mode_eq cn b raw s h⟩

/-- Witness for the amended C4: the upload equality at a concrete input. -/
theorem facade_mode_equivalence_w :
    facadeUploadBlob true "c".data "b".data "d".data (some false) oneContainerState
      = facadeUploadBlob false "c".data "b".data "d".data (some false) oneContainerState :=
  (facade_mode_equivalence "c".data "b".data "d".data (some false) oneContainerState
    (by decide)).2.2.2.1

/-! ### Claim C3 -/

/-- C3 (counterexample): in blob.py's sync classes the upload of an
existing blob name is NOT a silent no-op success: BlobSync.upload_blob
has no handler and the facade Blob.upload_blob adds none, so the
ResourceExistsError propagates to the caller. -/
theorem upload_existing_escalates_in_blobpy :
    (blobPyFacadeUploadBlob false "c".data "b".data "new".data oneBlobState).2
      = .error (.azure .resourceExists) := by decide

/-- C3 (amended): in the azure_blob facade, uploading over an existing
blob without an explicit overwrite flag leaves the stored blobs
unchanged, propagates no error to the caller (the result is an ordinary
return), and a read performed afterwards returns the original bytes. -/
theorem upload_existing_silent_noop (isasync : Bool) (raw : Option Bool)
    (cn b dOld dNew : PyStr) (s : AzState)
    (hp : cn ∉ s.pending) (hc : cn ∈ s.containers)
    (hb : lookupBlob s cn b = some dOld) :
    (facadeUploadBlob isasync cn b dNew raw s).1.blobs = s.blobs ∧
    (∃ v, (facadeUploadBlob isasync cn b dNew raw s).2 = .ok v) ∧
    (facadeReadBlob false cn b (some true) (facadeUploadBlob isasync cn b dNew raw s).1).2
      = .ok (.str dOld) := by
  have hsdk := sdkUploadBlob_existing s cn b dNew hp hc (by simp [hb])
  have hread : ∀ t : AzState, t.pending = s.pending → t.containers = s.containers →
      t.blobs = s.blobs →
      (facadeReadBlob false cn b (some true) t).2 = .ok (.str dOld) := by
    intro t h1 h2 h3
    rw [facadeReadBlob_found t cn b dOld (h1.symm ▸ hp) (h2.symm ▸ hc)
      ((lookupBlob_eq_of_blobs t s h3 cn b).trans hb)]
  match raw with
  | Option.none =>
    rw [facadeUploadBlob_raw_none]
    exact ⟨rfl, ⟨.none, rfl⟩, hread s rfl rfl rfl⟩
  | some true =>
    cases isasync with
    | true =>
      have h1 : facadeUploadBlob true cn b dNew (some true) s = (s, .ok .coroutine) := rfl
      rw [h1]
      exact ⟨rfl, ⟨.coroutine, rfl⟩, hread s rfl rfl rfl⟩
    | false =>
      have h1 : facadeUploadBlob false cn b dNew (some true) s
          = (mark s (.uploadBlob cn b), .ok .none) := by
        show facadeUploadBlobFuel 2 false cn b dNew (some true) s
            = (mark s (.uploadBlob cn b), .ok .none)
        rw [facadeUploadBlobFuel_succ_some]
        simp [rawDispatch, popRaw, rawTruthy, hsdk]
      rw [h1]
      exact ⟨mark_blobs s _, ⟨.none, rfl⟩,
        hread _ (mark_pending s _) (mark_containers s _) (mark_blobs s _)⟩
  | some false =>
    have h1 : facadeUploadBlob isasync cn b dNew (some false) s
        = (mark s (.uploadBlob cn b), .ok .none) := by
      show facadeUploadBlobFuel 2 isasync cn b dNew (some false) s
          = (mark s (.uploadBlob cn b), .ok .none)
      rw [facadeUploadBlobFuel_succ_some]
      cases isasync <;> simp [rawDispatch, popRaw, rawTruthy, hsdk]
    rw [h1]
    exact ⟨mark_blobs s _, ⟨.none, rfl⟩,
      hread _ (mark_pending s _) (mark_containers s _) (mark_blobs s _)⟩

/-- Witness for the amended C3 at a concrete state holding one blob. -/
theorem upload_existing_silent_noop_w :
    (facadeUploadBlob false "c".data "b".data "new".data (some true) oneBlobState).1.blobs
      = oneBlobState.blobs :=
  (upload_existing_silent_noop false (some true) "c".data "b".data "old".data "new".data
    oneBlobState (by decide) (by decide) (by decide)).1

/-! ### Claim C7 -/

lemma lookupBlob_store (s : AzState) (c b d : PyStr)
    (h : lookupBlob s c b = Option.none) :
    lookupBlob { mark s (.uploadBlob c b) with blobs := s.blobs ++ [(c, b, d)] } c b
      = some d := by
  have h' : s.blobs.find? (fun t => t.1 == c && t.2.1 == b) = Option.none := by
    rcases hf : s.blobs.find? (fun t => t.1 == c && t.2.1 == b) with _ | v
    · exact hf
    · rw [lookupBlob, hf] at h
      simp at h
  unfold lookupBlob
  rw [List.find?_append, h']
  simp [List.find?]

/-- C7 (counterexample): saving a name whose blob already exists is
skipped, but the skip is reported as None — the `return cleaned_name`
sits inside the try and the ResourceExistsError handler is `pass` — not
as the cleaned name. -/
theorem save_existing_returns_none :
    (azureStorageSave false [] "c".data "file.txt".data "new".data savedFileState).2
      = .ok Option.none ∧
    (Except.ok Option.none : Except PyExn (Option PyStr))
      ≠ .ok (some (clean_name "file.txt".data)) := by
  refine ⟨?_, ?_⟩ <;> decide

/-- C7 (amended): for a valid name under a live container, save returns
the cleaned name exactly when the upload happens (and the content is then
stored); when the blob already exists the write is skipped without any
exception, the state (other than the SDK trace) is untouched, but the
result is None rather than the cleaned name. -/
theorem save_result_shape (runAsync : Bool) (loc cn name content vname : PyStr)
    (s : AzState) (hv : get_valid_path loc name = .ok vname)
    (hp : cn ∉ s.pending) (hc : cn ∈ s.containers) :
    (lookupBlob s cn vname = Option.none →
      (azureStorageSave runAsync loc cn name content s).2 = .ok (some (clean_name name)) ∧
      lookupBlob (azureStorageSave runAsync loc cn name content s).1 cn vname
        = some content) ∧
    (∀ dOld, lookupBlob s cn vname = some dOld →
      azureStorageSave runAsync loc cn name content s
        = (mark s (.uploadBlob cn vname), .ok Option.none)) := by
  constructor
  · intro hb
    have hsdk := sdkUploadBlob_fresh s cn vname content hp hc hb
    constructor
    · cases runAsync <;> simp [azureStorageSave, hv, hsdk]
    · have hl := lookupBlob_store s cn vname content hb
      cases runAsync <;> simp [azureStorageSave, hv, hsdk, hl]
  · intro dOld hb
    have hsdk := sdkUploadBlob_existing s cn vname content hp hc (by simp [hb])
    cases runAsync <;> simp [azureStorageSave, hv, hsdk]

/-- Witness for the amended C7: a fresh name is stored and the cleaned
name is returned. -/
theorem save_result_shape_w :
    (azureStorageSave false [] "c".data "new.txt".data "data".data oneContainerState).2
      = .ok (some (clean_name "new.txt".data)) :=
  ((save_result_shape false [] "c".data "new.txt".data "data".data "new.txt".data
      oneContainerState (by decide) (by decide) (by decide)).1 (by decide)).1

/-! ### Claim C10: structure of splitSlash and joinSlash -/

lemma splitSlash_eq_cons (s : PyStr) : ∃ h t, splitSlash s = h :: t := by
  induction s with
  | nil => exact ⟨[], [], rfl⟩
  | cons c rest ih =>
    obtain ⟨h, t, ihe⟩ := ih
    by_cases hc : c = '/'
    · exact ⟨[], splitSlash rest, by simp [splitSlash, hc]⟩
    · exact ⟨c :: h, t, by simp [splitSlash, hc, ihe]⟩

lemma splitSlash_ne_nil (s : PyStr) : splitSlash s ≠ [] := by
  obtain ⟨h, t, he⟩ := splitSlash_eq_cons s
  simp [he]

lemma splitSlash_of_no_slash (x : PyStr) (h : '/' ∉ x) : splitSlash x = [x] := by
  induction x with
  | nil => rfl
  | cons c rest ih =>
    have hc : c ≠ '/' := by rintro rfl; exact h (List.mem_cons_self _ _)
    have hr : '/' ∉ rest := fun hm => h (List.mem_cons_of_mem _ hm)
    simp [splitSlash, hc, ih hr]

lemma splitSlash_append_cons (x r : PyStr) (h : '/' ∉ x) :
    splitSlash (x ++ '/' :: r) = x :: splitSlash r := by
  induction x with
  | nil => simp [splitSlash]
  | cons c rest ih =>
    have hc : c ≠ '/' := by rintro rfl; exact h (List.mem_cons_self _ _)
    have hr : '/' ∉ rest := fun hm => h (List.mem_cons_of_mem _ hm)
    simp [splitSlash, hc, ih hr]

lemma splitSlash_joinSlash (l : List PyStr) (hne : l ≠ [])
    (h : ∀ x ∈ l, '/' ∉ x) : splitSlash (joinSlash l) = l := by
  induction l with
  | nil => exact absurd rfl hne
  | cons x t ih =>
    cases t with
    | nil => exact splitSlash_of_no_slash x (h x (List.mem_cons_self _ _))
    | cons y t' =>
      rw [show joinSlash (x :: y :: t') = x ++ '/' :: joinSlash (y :: t') from rfl,
          splitSlash_append_cons x _ (h x (List.mem_cons_self _ _)),
          ih (by simp) (fun z hz => h z (List.mem_cons_of_mem _ hz))]

lemma splitSlash_append_slash (r : PyStr) :
    splitSlash (r ++ ['/']) = splitSlash r ++ [[]] := by
  induction r with
  | nil => rfl
  | cons c rest ih =>
    by_cases hc : c = '/'
    · subst hc; simp [splitSlash, ih]
    · obtain ⟨h, t, he⟩ := splitSlash_eq_cons rest
      simp [splitSlash, hc, ih, he]

lemma splitSlash_chars (c : Char) :
    ∀ (p x : PyStr), x ∈ splitSlash p → c ∈ x → c ∈ p := by
  intro p
  induction p with
  | nil =>
    intro x hx hc
    simp [splitSlash] at hx
    subst hx; simp at hc
  | cons a rest ih =>
    intro x hx hc
    by_cases ha : a = '/'
    · subst ha
      simp only [splitSlash, if_pos rfl] at hx
      rcases List.mem_cons.mp hx with rfl | hx
      · simp at hc
      · exact List.mem_cons_of_mem _ (ih x hx hc)
    · obtain ⟨h, t, he⟩ := splitSlash_eq_cons rest
      rw [show splitSlash (a :: rest) = (a :: h) :: t by simp [splitSlash, ha, he]] at hx
      rcases List.mem_cons.mp hx with rfl | hx
      · rcases List.mem_cons.mp hc with rfl | hc
        · exact List.mem_cons_self _ _
        · exact List.mem_cons_of_mem _ (ih h (he ▸ List.mem_cons_self _ _) hc)
      · exact List.mem_cons_of_mem _ (ih x (he ▸ List.mem_cons_of_mem _ hx) hc)

lemma splitSlash_no_slash : ∀ (p x : PyStr), x ∈ splitSlash p → '/' ∉ x := by
  intro p
  induction p with
  | nil =>
    intro x hx
    simp [splitSlash] at hx
    subst hx; simp
  | cons a rest ih =>
    intro x hx
    by_cases ha : a = '/'
    · subst ha
      simp only [splitSlash, if_pos rfl] at hx
      rcases List.mem_cons.mp hx with rfl | hx
      · simp
      · exact ih x hx
    · obtain ⟨h, t, he⟩ := splitSlash_eq_cons rest
      rw [show splitSlash (a :: rest) = (a :: h) :: t by simp [splitSlash, ha, he]] at hx
      rcases List.mem_cons.mp hx with rfl | hx
      · intro hmem
        rcases List.mem_cons.mp hmem with h1 | h1
        · exact ha h1.symm
        · exact ih h (he ▸ List.mem_cons_self _ _) h1
      · exact ih x (he ▸ List.mem_cons_of_mem _ hx)

lemma joinSlash_cons_cons (x y : PyStr) (t : List PyStr) :
    joinSlash (x :: y :: t) = x ++ '/' :: joinSlash (y :: t) := rfl

lemma joinSlash_chars (c : Char) : ∀ l : List PyStr, c ∈ joinSlash l →
    c = '/' ∨ ∃ x ∈ l, c ∈ x := by
  intro l
  induction l with
  | nil => intro h; simp [joinSlash] at h
  | cons x t ih =>
    cases t with
    | nil => intro h; exact Or.inr ⟨x, List.mem_cons_self _ _, h⟩
    | cons y t' =>
      intro h
      rw [joinSlash_cons_cons] at h
      rcases List.mem_append.mp h with h1 | h1
      · exact Or.inr ⟨x, List.mem_cons_self _ _, h1⟩
      · rcases List.mem_cons.mp h1 with rfl | h1
        · exact Or.inl rfl
        · rcases ih h1 with h2 | ⟨z, hz, hcz⟩
          · exact Or.inl h2
          · exact Or.inr ⟨z, List.mem_cons_of_mem _ hz, hcz⟩

/-! ### Claim C10: shape of the component fold -/

def GoodComp (x : PyStr) : Prop := x ≠ [] ∧ x ≠ ['.']

/-- The invariant of `new_comps` in normpath's loop: no empty or `'.'`
components, the `'..'` components form a prefix, and with initial
slashes there are no `'..'` components at all. -/
def NormShape (isl : Nat) (l : List PyStr) : Prop :=
  (∀ x ∈ l, GoodComp x) ∧
  ∃ k rest, l = List.replicate k dotdot ++ rest ∧
    (∀ x ∈ rest, x ≠ dotdot) ∧ (isl ≠ 0 → k = 0)

lemma getLast?_replicate (k : Nat) (a : PyStr) :
    (List.replicate k a).getLast? = if k = 0 then Option.none else some a := by
  cases k with
  | zero => rfl
  | succ n => rw [List.replicate_succ', List.getLast?_concat]; simp

lemma stepComp_shape (isl : Nat) (acc : List PyStr) (comp : PyStr)
    (h : NormShape isl acc) : NormShape isl (stepComp isl acc comp) := by
  obtain ⟨hgood, k, rest, hacc, hnd, hk⟩ := h
  unfold stepComp
  split_ifs with h1 h2 h3
  · exact ⟨hgood, k, rest, hacc, hnd, hk⟩
  · push_neg at h1
    refine ⟨?_, ?_⟩
    · intro x hx
      rcases List.mem_append.mp hx with hx | hx
      · exact hgood x hx
      · rw [List.mem_singleton.mp hx]
        exact ⟨h1.1, h1.2⟩
    · by_cases hdd : comp = dotdot
      · subst hdd
        rcases h2 with h2 | h2 | h2
        · exact absurd rfl h2
        · obtain ⟨hisl, haccnil⟩ := h2
          subst haccnil
          refine ⟨1, [], by simp, by simp, ?_⟩
          intro hne; exact absurd hisl hne
        · obtain ⟨haccne, hlast⟩ := h2
          have hrest : rest = [] := by
            by_contra hrne
            rw [hacc, List.getLast?_append_of_ne_nil _ hrne] at hlast
            exact hnd _ (List.mem_of_mem_getLast? (hlast ▸ rfl)) rfl
          subst hrest
          rw [List.append_nil] at hacc
          subst hacc
          refine ⟨k + 1, [], by rw [List.replicate_succ']; simp, by simp, ?_⟩
          intro hisl
          exact absurd (by simp [hk hisl] : List.replicate k dotdot = []) haccne
      · refine ⟨k, rest ++ [comp], ?_, ?_, hk⟩
        · rw [hacc, List.append_assoc]
        · intro x hx
          rcases List.mem_append.mp hx with hx | hx
          · exact hnd x hx
          · rw [List.mem_singleton.mp hx]; exact hdd
  · push_neg at h2
    have hlast : acc.getLast? ≠ some dotdot := h2.2.2 h3
    have hrest : rest ≠ [] := by
      rintro rfl
      rw [List.append_nil] at hacc
      subst hacc
      have hk0 : k ≠ 0 := by rintro rfl; simp at h3
      rw [getLast?_replicate, if_neg hk0] at hlast
      exact hlast rfl
    refine ⟨?_, k, rest.dropLast, ?_, ?_, hk⟩
    · intro x hx
      exact hgood x ((List.dropLast_sublist acc).subset hx)
    · rw [hacc, List.dropLast_append_of_ne_nil _ hrest]
    · intro x hx
      exact hnd x ((List.dropLast_sublist rest).subset hx)
  · exact ⟨hgood, k, rest, hacc, hnd, hk⟩

lemma foldl_stepComp_shape (isl : Nat) (comps : List PyStr) :
    ∀ acc, NormShape isl acc → NormShape isl (comps.foldl (stepComp isl) acc) := by
  induction comps with
  | nil => intro acc h; exact h
  | cons c t ih => intro acc h; exact ih _ (stepComp_shape isl acc c h)

lemma normParts_shape (isl : Nat) (comps : List PyStr) :
    NormShape isl (normParts isl comps) :=
  foldl_stepComp_shape isl comps []
    ⟨by simp, 0, [], by simp, by simp, fun _ => rfl⟩

lemma stepComp_mem (isl : Nat) (acc : List PyStr) (comp x : PyStr)
    (hx : x ∈ stepComp isl acc comp) : x ∈ acc ∨ x = comp := by
  unfold stepComp at hx
  split_ifs at hx
  · exact Or.inl hx
  · rcases List.mem_append.mp hx with hx | hx
    · exact Or.inl hx
    · exact Or.inr (List.mem_singleton.mp hx)
  · exact Or.inl ((List.dropLast_sublist acc).subset hx)
  · exact Or.inl hx

lemma foldl_stepComp_mem (isl : Nat) (comps : List PyStr) :
    ∀ acc x, x ∈ comps.foldl (stepComp isl) acc → x ∈ acc ∨ x ∈ comps := by
  induction comps with
  | nil => intro acc x hx; exact Or.inl hx
  | cons c t ih =>
    intro acc x hx
    rcases ih _ x hx with hx1 | hx1
    · rcases stepComp_mem isl acc c x hx1 with h | h
      · exact Or.inl h
      · exact Or.inr (by rw [h]; exact List.mem_cons_self _ _)
    · exact Or.inr (List.mem_cons_of_mem _ hx1)

lemma normParts_mem (isl : Nat) (comps : List PyStr) (x : PyStr)
    (hx : x ∈ normParts isl comps) : x ∈ comps := by
  rcases foldl_stepComp_mem isl comps [] x hx with h | h
  · simp at h
  · exact h

lemma stepComp_nil (isl : Nat) (acc : List PyStr) : stepComp isl acc [] = acc := by
  simp [stepComp]

lemma foldl_stepComp_nils (isl : Nat) (n : Nat) :
    ∀ acc, (List.replicate n []).foldl (stepComp isl) acc = acc := by
  induction n with
  | zero => intro acc; rfl
  | succ m ih =>
    intro acc
    rw [List.replicate_succ, List.foldl_cons, stepComp_nil, ih]

lemma foldl_stepComp_dots (k : Nat) :
    ∀ acc, (∀ x ∈ acc, x = dotdot) →
      (List.replicate k dotdot).foldl (stepComp 0) acc
        = acc ++ List.replicate k dotdot := by
  induction k with
  | zero => intro acc _; simp
  | succ m ih =>
    intro acc hacc
    have hcond : dotdot ≠ dotdot ∨ (0 = 0 ∧ acc = []) ∨
        (acc ≠ [] ∧ acc.getLast? = some dotdot) := by
      rcases List.eq_nil_or_concat acc with rfl | ⟨l, a, rfl⟩
      · exact Or.inr (Or.inl ⟨rfl, rfl⟩)
      · refine Or.inr (Or.inr ⟨by simp, ?_⟩)
        rw [List.concat_eq_append, List.getLast?_concat]
        exact congrArg some (hacc a (by simp))
    have hstep : stepComp 0 acc dotdot = acc ++ [dotdot] := by
      unfold stepComp
      rw [if_neg (by simp [dotdot]), if_pos hcond]
    rw [List.replicate_succ, List.foldl_cons, hstep,
        ih (acc ++ [dotdot]) (by
          intro x hx
          rcases List.mem_append.mp hx with h | h
          · exact hacc x h
          · exact List.mem_singleton.mp h)]
    simp [List.replicate_succ]

lemma foldl_stepComp_nondots (isl : Nat) (l : List PyStr)
    (hl : ∀ x ∈ l, x ≠ [] ∧ x ≠ ['.'] ∧ x ≠ dotdot) :
    ∀ acc, l.foldl (stepComp isl) acc = acc ++ l := by
  induction l with
  | nil => intro acc; simp
  | cons c t ih =>
    intro acc
    have hc := hl c (List.mem_cons_self _ _)
    have hstep : stepComp isl acc c = acc ++ [c] := by
      unfold stepComp
      rw [if_neg (by push_neg; exact ⟨hc.1, hc.2.1⟩), if_pos (Or.inl hc.2.2)]
    rw [List.foldl_cons, hstep,
        ih (fun x hx => hl x (List.mem_cons_of_mem _ hx))]
    simp

lemma normParts_restart (isl : Nat) (l : List PyStr) (h : NormShape isl l) :
    normParts isl l = l := by
  obtain ⟨hgood, k, rest, hl, hnd, hk⟩ := h
  have hrest' : ∀ x ∈ rest, x ≠ [] ∧ x ≠ ['.'] ∧ x ≠ dotdot := by
    intro x hx
    have hg := hgood x (by rw [hl]; exact List.mem_append_right _ hx)
    exact ⟨hg.1, hg.2, hnd x hx⟩
  subst hl
  unfold normParts
  by_cases hisl : isl = 0
  · subst hisl
    rw [List.foldl_append, foldl_stepComp_dots k [] (by simp),
        foldl_stepComp_nondots 0 rest hrest']
    simp
  · rw [hk hisl]
    simp only [List.replicate_zero, List.nil_append]
    rw [foldl_stepComp_nondots isl rest hrest']
    simp

lemma normParts_skip_nils (isl n : Nat) (l : List PyStr) :
    normParts isl (List.replicate n [] ++ l) = normParts isl l := by
  unfold normParts
  rw [List.foldl_append, foldl_stepComp_nils]

lemma normParts_append_nil (isl : Nat) (l : List PyStr) :
    normParts isl (l ++ [[]]) = normParts isl l := by
  unfold normParts
  rw [List.foldl_append, List.foldl_cons, stepComp_nil, List.foldl_nil]

/-! ### Claim C10: canonical forms and idempotence of normpath -/

lemma normpath_def (p : PyStr) :
    normpath p = if p = [] then ['.']
      else if List.replicate (initialSlashes p) '/'
            ++ joinSlash (normParts (initialSlashes p) (splitSlash p)) = []
        then ['.']
        else List.replicate (initialSlashes p) '/'
            ++ joinSlash (normParts (initialSlashes p) (splitSlash p)) := rfl

lemma initialSlashes_of_head (c : Char) (r : PyStr) (hc : c ≠ '/') :
    initialSlashes (c :: r) = 0 := by
  simp [initialSlashes, pyStartswith, List.take, hc]

lemma initialSlashes_one (c : Char) (r : PyStr) (hc : c ≠ '/') :
    initialSlashes ('/' :: c :: r) = 1 := by
  simp [initialSlashes, pyStartswith, List.take, hc]

lemma initialSlashes_two (c : Char) (r : PyStr) (hc : c ≠ '/') :
    initialSlashes ('/' :: '/' :: c :: r) = 2 := by
  simp [initialSlashes, pyStartswith, List.take, hc]

lemma initialSlashes_cases (p : PyStr) :
    initialSlashes p = 0 ∨ initialSlashes p = 1 ∨ initialSlashes p = 2 := by
  unfold initialSlashes
  split_ifs <;> simp

lemma joinSlash_cons_head (c : Char) (x : PyStr) (t : List PyStr) :
    ∃ r, joinSlash ((c :: x) :: t) = c :: r := by
  cases t with
  | nil => exact ⟨x, rfl⟩
  | cons y t' => exact ⟨x ++ '/' :: joinSlash (y :: t'), rfl⟩

lemma normpath_cases (p : PyStr) :
    normpath p = ['.'] ∨
    (normpath p = List.replicate (initialSlashes p) '/'
        ++ joinSlash (normParts (initialSlashes p) (splitSlash p)) ∧
     normpath p ≠ []) := by
  rw [normpath_def]
  split_ifs with h1 h2
  · exact Or.inl rfl
  · exact Or.inl rfl
  · exact Or.inr ⟨rfl, h2⟩

lemma normpath_canonical0 (parts : List PyStr) (hne : parts ≠ [])
    (hsh : NormShape 0 parts) (hns : ∀ x ∈ parts, '/' ∉ x) :
    normpath (joinSlash parts) = joinSlash parts := by
  obtain ⟨x, t, rfl⟩ := List.exists_cons_of_ne_nil hne
  obtain ⟨c, x', rfl⟩ :=
    List.exists_cons_of_ne_nil (hsh.1 _ (List.mem_cons_self _ _)).1
  have hc : c ≠ '/' := fun hcc =>
    hns _ (List.mem_cons_self _ _) (by rw [hcc]; exact List.mem_cons_self _ _)
  obtain ⟨r, hr⟩ := joinSlash_cons_head c x' t
  have hne' : joinSlash ((c :: x') :: t) ≠ [] := by rw [hr]; simp
  have h0 : initialSlashes (joinSlash ((c :: x') :: t)) = 0 := by
    rw [hr]; exact initialSlashes_of_head c r hc
  have hsplit := splitSlash_joinSlash _ (by simp : (c :: x') :: t ≠ []) hns
  rw [normpath_def, if_neg hne', h0, hsplit, normParts_restart 0 _ hsh]
  simp only [List.replicate_zero, List.nil_append]
  rw [if_neg hne']

lemma normpath_canonical12 (isl : Nat) (parts : List PyStr)
    (hisl : isl = 1 ∨ isl = 2) (hsh : NormShape isl parts)
    (hns : ∀ x ∈ parts, '/' ∉ x) :
    normpath (List.replicate isl '/' ++ joinSlash parts)
      = List.replicate isl '/' ++ joinSlash parts := by
  cases parts with
  | nil =>
    rcases hisl with rfl | rfl
    · decide
    · decide
  | cons x t =>
    obtain ⟨c, x', rfl⟩ :=
      List.exists_cons_of_ne_nil (hsh.1 _ (List.mem_cons_self _ _)).1
    have hc : c ≠ '/' := fun hcc =>
      hns _ (List.mem_cons_self _ _) (by rw [hcc]; exact List.mem_cons_self _ _)
    obtain ⟨r, hr⟩ := joinSlash_cons_head c x' t
    have hne' : List.replicate isl '/' ++ joinSlash ((c :: x') :: t) ≠ [] := by
      rcases hisl with rfl | rfl <;> simp
    have hisl' : initialSlashes
        (List.replicate isl '/' ++ joinSlash ((c :: x') :: t)) = isl := by
      rw [hr]
      rcases hisl with rfl | rfl
      · exact initialSlashes_one c r hc
      · exact initialSlashes_two c r hc
    have hjs := splitSlash_joinSlash ((c :: x') :: t) (by simp) hns
    have hsplit : splitSlash (List.replicate isl '/' ++ joinSlash ((c :: x') :: t))
        = List.replicate isl [] ++ (c :: x') :: t := by
      rcases hisl with rfl | rfl
      · show splitSlash ('/' :: joinSlash ((c :: x') :: t)) = [[]] ++ (c :: x') :: t
        rw [show splitSlash ('/' :: joinSlash ((c :: x') :: t))
            = [] :: splitSlash (joinSlash ((c :: x') :: t)) by simp [splitSlash], hjs]
        rfl
      · show splitSlash ('/' :: '/' :: joinSlash ((c :: x') :: t))
            = [[], []] ++ (c :: x') :: t
        rw [show splitSlash ('/' :: '/' :: joinSlash ((c :: x') :: t))
            = [] :: [] :: splitSlash (joinSlash ((c :: x') :: t)) by simp [splitSlash], hjs]
        rfl
    rw [normpath_def, if_neg hne', hisl', hsplit, normParts_skip_nils,
        normParts_restart isl _ hsh, if_neg hne']

lemma normpath_idem (p : PyStr) : normpath (normpath p) = normpath p := by
  rcases normpath_cases p with h | ⟨h, hne⟩
  · rw [h]; decide
  · have hsh := normParts_shape (initialSlashes p) (splitSlash p)
    have hns : ∀ x ∈ normParts (initialSlashes p) (splitSlash p), '/' ∉ x := fun x hx =>
      splitSlash_no_slash p x (normParts_mem _ _ x hx)
    rcases initialSlashes_cases p with h0 | h12
    · rw [h0] at h hsh hns
      simp only [List.replicate_zero, List.nil_append] at h
      have hne' : normParts 0 (splitSlash p) ≠ [] := by
        intro hp
        rw [hp] at h
        simp [joinSlash] at h
        exact hne h
      rw [h]
      exact normpath_canonical0 _ hne' hsh hns
    · rw [h]
      exact normpath_canonical12 _ _ h12 hsh hns

lemma normpath_canonical_slash (isl : Nat) (parts : List PyStr)
    (hisl : isl = 0 ∨ isl = 1 ∨ isl = 2) (hne : parts ≠ [])
    (hsh : NormShape isl parts) (hns : ∀ x ∈ parts, '/' ∉ x) :
    normpath ((List.replicate isl '/' ++ joinSlash parts) ++ ['/'])
      = List.replicate isl '/' ++ joinSlash parts := by
  obtain ⟨x, t, rfl⟩ := List.exists_cons_of_ne_nil hne
  obtain ⟨c, x', rfl⟩ :=
    List.exists_cons_of_ne_nil (hsh.1 _ (List.mem_cons_self _ _)).1
  have hc : c ≠ '/' := fun hcc =>
    hns _ (List.mem_cons_self _ _) (by rw [hcc]; exact List.mem_cons_self _ _)
  obtain ⟨r, hr⟩ := joinSlash_cons_head c x' t
  have hne2 : (List.replicate isl '/' ++ joinSlash ((c :: x') :: t)) ++ ['/'] ≠ [] := by
    simp
  have hnei : List.replicate isl '/' ++ joinSlash ((c :: x') :: t) ≠ [] := by
    rw [hr]; rcases hisl with rfl | rfl | rfl <;> simp
  have hisl' : initialSlashes
      ((List.replicate isl '/' ++ joinSlash ((c :: x') :: t)) ++ ['/']) = isl := by
    rw [hr]
    rcases hisl with rfl | rfl | rfl
    · show initialSlashes (c :: (r ++ ['/'])) = 0
      exact initialSlashes_of_head _ _ hc
    · show initialSlashes ('/' :: c :: (r ++ ['/'])) = 1
      exact initialSlashes_one _ _ hc
    · show initialSlashes ('/' :: '/' :: c :: (r ++ ['/'])) = 2
      exact initialSlashes_two _ _ hc
  have hjs := splitSlash_joinSlash ((c :: x') :: t) (by simp) hns
  have hsplit : splitSlash ((List.replicate isl '/' ++ joinSlash ((c :: x') :: t)) ++ ['/'])
      = List.replicate isl [] ++ (((c :: x') :: t) ++ [[]]) := by
    rw [splitSlash_append_slash]
    rcases hisl with rfl | rfl | rfl
    · simp only [List.replicate_zero, List.nil_append]
      rw [hjs]
    · show splitSlash ('/' :: joinSlash ((c :: x') :: t)) ++ [[]]
          = [[]] ++ (((c :: x') :: t) ++ [[]])
      rw [show splitSlash ('/' :: joinSlash ((c :: x') :: t))
          = [] :: splitSlash (joinSlash ((c :: x') :: t)) by simp [splitSlash], hjs]
      rfl
    · show splitSlash ('/' :: '/' :: joinSlash ((c :: x') :: t)) ++ [[]]
          = [[], []] ++ (((c :: x') :: t) ++ [[]])
      rw [show splitSlash ('/' :: '/' :: joinSlash ((c :: x') :: t))
          = [] :: [] :: splitSlash (joinSlash ((c :: x') :: t)) by simp [splitSlash], hjs]
      rfl
  rw [normpath_def, if_neg hne2, hisl', hsplit, normParts_skip_nils,
      normParts_append_nil, normParts_restart isl _ hsh, if_neg hnei]

/-! ### Claim C10: clean_name level -/

lemma map_slashify_id (l : PyStr) (h : '\\' ∉ l) : l.map slashify = l := by
  induction l with
  | nil => rfl
  | cons c rest ih =>
    have hc : c ≠ '\\' := by rintro rfl; exact h (List.mem_cons_self _ _)
    simp [slashify, hc, ih (fun hm => h (List.mem_cons_of_mem _ hm))]

lemma normpath_chars (p : PyStr) (c : Char) (hc : c ∈ normpath p) :
    c = '/' ∨ c = '.' ∨ c ∈ p := by
  rcases normpath_cases p with h | ⟨h, _⟩
  · rw [h] at hc
    exact Or.inr (Or.inl (List.mem_singleton.mp hc))
  · rw [h] at hc
    rcases List.mem_append.mp hc with hc | hc
    · exact Or.inl (List.eq_of_mem_replicate hc)
    · rcases joinSlash_chars c _ hc with rfl | ⟨x, hx, hcx⟩
      · exact Or.inl rfl
      · exact Or.inr (Or.inr (splitSlash_chars c p x (normParts_mem _ _ x hx) hcx))

lemma no_backslash_normpath (p : PyStr) (h : '\\' ∉ p) : '\\' ∉ normpath p := by
  intro hm
  rcases normpath_chars p _ hm with h1 | h1 | h1
  · exact absurd h1 (by decide)
  · exact absurd h1 (by decide)
  · exact h h1

lemma clean_name_def (name : PyStr) :
    clean_name name =
      if (if endsWithSlash name && !endsWithSlash ((normpath name).map slashify)
          then (normpath name).map slashify ++ ['/']
          else (normpath name).map slashify) = ['.']
      then []
      else (if endsWithSlash name && !endsWithSlash ((normpath name).map slashify)
          then (normpath name).map slashify ++ ['/']
          else (normpath name).map slashify) := rfl

lemma endsWithSlash_concat_slash (l : PyStr) : endsWithSlash (l ++ ['/']) = true := by
  simp [endsWithSlash, List.getLast?_concat]

lemma concat_slash_ne_dot (l : PyStr) : l ++ ['/'] ≠ ['.'] := by
  intro h
  have h2 := congrArg List.getLast? h
  rw [List.getLast?_concat] at h2
  simp at h2

/-- C10 (amended): clean_name is idempotent on every name containing no
backslash: the replace step is then the identity and normpath is
idempotent, including through the trailing-slash restoration.  A
backslash-containing name can change again under a second application
(see the counterexample), because the backslashes are replaced only
after normpath has already run. -/
theorem clean_name_idem (name : PyStr) (hbs : '\\' ∉ name) :
    clean_name (clean_name name) = clean_name name := by
  have hm : (normpath name).map slashify = normpath name :=
    map_slashify_id _ (no_backslash_normpath _ hbs)
  by_cases hfix : (endsWithSlash name && !endsWithSlash (normpath name)) = true
  · have h1 : clean_name name = normpath name ++ ['/'] := by
      rw [clean_name_def, hm, if_pos hfix, if_neg (concat_slash_ne_dot _)]
    rcases normpath_cases name with hdot | ⟨hcan, hne⟩
    · rw [h1, hdot]
      decide
    · have hsh := normParts_shape (initialSlashes name) (splitSlash name)
      have hns : ∀ x ∈ normParts (initialSlashes name) (splitSlash name), '/' ∉ x :=
        fun x hx => splitSlash_no_slash name x (normParts_mem _ _ x hx)
      have hnotend : endsWithSlash (normpath name) = false := by
        have hb := (Bool.and_eq_true _ _ ▸ hfix).2
        cases he : endsWithSlash (normpath name)
        · rfl
        · rw [he] at hb; simp at hb
      have hparts_ne : normParts (initialSlashes name) (splitSlash name) ≠ [] := by
        intro hp
        rw [hp] at hcan
        rcases initialSlashes_cases name with h0 | h12
        · rw [h0] at hcan
          simp [joinSlash] at hcan
          exact hne hcan
        · rcases h12 with h1' | h1'
          · rw [h1'] at hcan
            rw [hcan] at hnotend
            simp [joinSlash, endsWithSlash] at hnotend
          · rw [h1'] at hcan
            rw [hcan] at hnotend
            simp [joinSlash, endsWithSlash] at hnotend
      have hslash := normpath_canonical_slash (initialSlashes name)
        (normParts (initialSlashes name) (splitSlash name))
        (initialSlashes_cases name) hparts_ne hsh hns
      have hnorm : normpath (normpath name ++ ['/']) = normpath name := by
        rw [hcan]; exact hslash
      have hcond : (endsWithSlash (normpath name ++ ['/'])
          && !endsWithSlash (normpath name)) = true := by
        rw [endsWithSlash_concat_slash, hnotend]
        rfl
      rw [h1, clean_name_def, hnorm, hm, if_pos hcond,
          if_neg (concat_slash_ne_dot _)]
  · have hfix' : (endsWithSlash name && !endsWithSlash (normpath name)) = false :=
      Bool.eq_false_iff.mpr hfix
    by_cases hdot : normpath name = ['.']
    · have h1 : clean_name name = [] := by
        rw [clean_name_def, hm, hfix']
        simp [hdot]
      rw [h1]
      decide
    · have h1 : clean_name name = normpath name := by
        rw [clean_name_def, hm, hfix']
        simp [hdot]
      rw [h1, clean_name_def, normpath_idem, hm, Bool.and_not_self]
      simp [hdot]

/-- C10 (counterexample): clean_name is not idempotent on every string:
for the Windows-style name `a\..` the first pass yields `a/..` (the
backslash becomes a slash only after normpath has already run) and a
second pass collapses that to the empty name. -/
theorem clean_name_not_idem :
    clean_name ("a\\..".data) = "a/..".data ∧
    clean_name (clean_name ("a\\..".data)) = [] ∧
    clean_name (clean_name ("a\\..".data)) ≠ clean_name ("a\\..".data) := by
  refine ⟨?_, ?_, ?_⟩ <;> decide

/-- Witness for the amended C10 at a concrete backslash-free name. -/
theorem clean_name_idem_w :
    clean_name (clean_name ("docs/a/../b.txt".data))
      = clean_name ("docs/a/../b.txt".data) :=
  clean_name_idem ("docs/a/../b.txt".data) (by decide)
